import Mathlib

/-!
Verification of the ScamBait-X honeypot service against its specification.

Python floats are modelled as exact rationals, Python lists as Lean lists,
and Python dicts as insertion-ordered association lists.  Randomized draws
(`random.randint`) are passed in as explicit arguments.  Fallible code is
modelled with `Option`.
-/

set_option maxRecDepth 4000

/-- Scam categories, from `ScamType` in `honeypot/models/schemas.py`. -/
inductive ScamType where
  | lottery
  | upi_fraud
  | tech_support
  | romance
  | investment
  | unknown
deriving DecidableEq, Repr

/-- Dialogue modes, from `ExtractionMode` in `honeypot/models/schemas.py`. -/
inductive ExtractionMode where
  | patience
  | aggressive
deriving DecidableEq, Repr

/-- Threat severity levels, from `ThreatLevel` in `honeypot/models/schemas.py`. -/
inductive ThreatLevel where
  | low
  | medium
  | high
  | critical
deriving DecidableEq, Repr

/-- Message sender roles, from `MessageRole` in `honeypot/models/schemas.py`. -/
inductive MessageRole where
  | honeypot
  | scammer
deriving DecidableEq, Repr

/-- Extracted bank account details, from `BankAccount` in `honeypot/models/schemas.py`. -/
structure BankAccount where
  account_number : String
  ifsc_code : Option String
  bank_name : Option String
deriving DecidableEq, Repr

/-- Extracted cryptocurrency address, from `CryptoAddress` in `honeypot/models/schemas.py`. -/
structure CryptoAddress where
  address : String
  currency : String
deriving DecidableEq, Repr

/-- All entities extracted from a conversation, from `ExtractedEntities` in
`honeypot/models/schemas.py`. -/
structure ExtractedEntities where
  upi_ids : List String
  phone_numbers : List String
  bank_accounts : List BankAccount
  crypto_addresses : List CryptoAddress
  urls : List String
  email_addresses : List String
deriving DecidableEq, Repr

/-- The empty `ExtractedEntities` value (all pydantic default factories). -/
def ExtractedEntities.empty : ExtractedEntities :=
  ⟨[], [], [], [], [], []⟩

/-- Result of scam classification, from `ScamClassification` in
`honeypot/models/schemas.py`; the float confidence is modelled as a rational. -/
structure ScamClassification where
  scam_type : ScamType
  confidence : ℚ
  indicators : List String
deriving DecidableEq, Repr

/-- A single conversation message, from `Message` in `honeypot/models/schemas.py`.
Timestamps are real-time values and are not modelled. -/
structure Message where
  role : MessageRole
  content : String
  raw_content : Option String
  entities_found : List String
deriving DecidableEq, Repr

/-- An active honeypot session, from `Session` in `honeypot/models/schemas.py`.
The uuid and datetime fields are not modelled; all counter and state fields are. -/
structure Session where
  persona_id : String
  current_mode : ExtractionMode
  conversation_history : List Message
  extracted_entities : ExtractedEntities
  scam_classification : Option ScamClassification
  turn_count : Nat
  urgency_signals : Nat
  greed_signals : Nat
deriving Repr

/-- `Session.add_message` from `honeypot/models/schemas.py`: appends a message to
`conversation_history` and increments `turn_count` by one, for either role.
The Python default `entities or []` is modelled by the caller passing `[]`. -/
def Session.add_message (s : Session) (role : MessageRole) (content : String)
    (raw_content : Option String) (entities : List String) : Session :=
  { s with
    conversation_history :=
      s.conversation_history ++ [⟨role, content, raw_content, entities⟩],
    turn_count := s.turn_count + 1 }

/-- `calculate_threat_level` from `honeypot/models/schemas.py`: weighted score of
classification confidence and entity counts, then a threshold ladder. -/
def calculate_threat_level (classification : ScamClassification)
    (entities : ExtractedEntities) : ThreatLevel :=
  let score := classification.confidence * (4/10)
  let score := score + min ((entities.upi_ids.length : ℚ) * (15/100)) (3/10)
  let score := score + min ((entities.bank_accounts.length : ℚ) * (2/10)) (3/10)
  let score := score + min ((entities.phone_numbers.length : ℚ) * (1/10)) (2/10)
  let score := score + min ((entities.crypto_addresses.length : ℚ) * (25/100)) (3/10)
  if score ≥ 8/10 then ThreatLevel.critical
  else if score ≥ 6/10 then ThreatLevel.high
  else if score ≥ 4/10 then ThreatLevel.medium
  else ThreatLevel.low

/-- The threat score equation exactly as the specification writes it. -/
def specThreatScore (c : ℚ) (upiCount bankAccountCount phoneCount cryptoCount : ℕ) : ℚ :=
  (4/10) * c + min ((15/100) * (upiCount : ℚ)) (3/10)
    + min ((2/10) * (bankAccountCount : ℚ)) (3/10)
    + min ((1/10) * (phoneCount : ℚ)) (2/10)
    + min ((25/100) * (cryptoCount : ℚ)) (3/10)

/-- The threshold ladder exactly as the specification writes it. -/
def specLevelOfScore (s : ℚ) : ThreatLevel :=
  if s ≥ 8/10 then ThreatLevel.critical
  else if s ≥ 6/10 then ThreatLevel.high
  else if s ≥ 4/10 then ThreatLevel.medium
  else ThreatLevel.low

/-- Helper: the sequential score accumulation of the source equals the one-shot
spec equation, for every classification and entity set. -/
theorem calculate_threat_level_eq_spec (cl : ScamClassification) (e : ExtractedEntities) :
    calculate_threat_level cl e =
      specLevelOfScore (specThreatScore cl.confidence e.upi_ids.length
        e.bank_accounts.length e.phone_numbers.length e.crypto_addresses.length) := by
  simp only [calculate_threat_level, specLevelOfScore, specThreatScore, mul_comm]

/-- C1: for every classification and entity set, `calculate_threat_level` equals the
spec equation `score = 0.4*c + min(0.15*upi, 0.3) + min(0.2*bank, 0.3) +
min(0.1*phone, 0.2) + min(0.25*crypto, 0.3)` mapped through the thresholds
(critical at 0.8, high at 0.6, medium at 0.4, else low); and the two worked
examples hold: confidence 0.9 with 2 UPI ids and 1 bank account scores 0.86 and is
critical, confidence 0 with no entities scores 0 and is low. -/
theorem threat_level_matches_spec_equation :
    (∀ (cl : ScamClassification) (e : ExtractedEntities),
      calculate_threat_level cl e =
        specLevelOfScore (specThreatScore cl.confidence e.upi_ids.length
          e.bank_accounts.length e.phone_numbers.length e.crypto_addresses.length)) ∧
    specThreatScore (9/10) 2 1 0 0 = 86/100 ∧
    calculate_threat_level ⟨ScamType.lottery, 9/10, []⟩
      ⟨["a@upi", "b@upi"], [], [⟨"123456789", none, none⟩], [], [], []⟩ =
      ThreatLevel.critical ∧
    specThreatScore 0 0 0 0 0 = 0 ∧
    calculate_threat_level ⟨ScamType.unknown, 0, []⟩ ExtractedEntities.empty =
      ThreatLevel.low := by
  refine ⟨calculate_threat_level_eq_spec, by norm_num [specThreatScore, min_def], ?_,
    by norm_num [specThreatScore, min_def], ?_⟩
  · rw [calculate_threat_level_eq_spec]
    norm_num [specThreatScore, specLevelOfScore, min_def]
  · rw [calculate_threat_level_eq_spec]
    norm_num [specThreatScore, specLevelOfScore, min_def, ExtractedEntities.empty]

/-- Signal returned by the mode switcher, from `ModeSwitchSignal` in
`honeypot/agent/mode_switcher.py`. -/
structure ModeSwitchSignal where
  should_switch : Bool
  new_mode : ExtractionMode
  reason : String
  urgency_score : Nat
  greed_score : Nat
  turn_count : Nat
deriving DecidableEq, Repr

/-- Threshold `MIN_TURNS_FOR_AGGRESSIVE` of `ModeSwitcher`. -/
def MIN_TURNS_FOR_AGGRESSIVE : Nat := 4

/-- Threshold `URGENCY_THRESHOLD` of `ModeSwitcher`. -/
def URGENCY_THRESHOLD : Nat := 3

/-- Threshold `GREED_THRESHOLD` of `ModeSwitcher`. -/
def GREED_THRESHOLD : Nat := 2

/-- Threshold `MAX_PATIENCE_TURNS` of `ModeSwitcher`. -/
def MAX_PATIENCE_TURNS : Nat := 12

/-- `ModeSwitcher._should_switch_to_aggressive` from
`honeypot/agent/mode_switcher.py`: the prioritized decision ladder, returning the
decision and the reason string (f-strings rendered with `toString`). -/
def should_switch_to_aggressive (turns urgency greed fear : Nat) : Bool × String :=
  if turns < MIN_TURNS_FOR_AGGRESSIVE then
    (false, "Building rapport (early turns)")
  else if turns ≥ MAX_PATIENCE_TURNS then
    (true, "Maximum patience turns reached (" ++ toString turns ++ ")")
  else if urgency ≥ URGENCY_THRESHOLD then
    (true, "High urgency detected (" ++ toString urgency ++ " signals)")
  else if greed ≥ GREED_THRESHOLD then
    (true, "Greed indicators high (" ++ toString greed ++ " signals)")
  else if fear ≥ 2 then
    (true, "Fear tactics detected (" ++ toString fear ++ " threats)")
  else
    (false, "Continuing patience mode")

/-- `ModeSwitcher.analyze` from `honeypot/agent/mode_switcher.py`.  The per-message
detector results `detect_urgency_level`, `detect_greed_signals` and
`detect_fear_tactics` on the latest scammer message are passed in as the
arguments `urgency`, `greed` and `fear`; the session counters are updated and the
decision ladder is consulted only while in PATIENCE.  Returns the mutated
session together with the signal. -/
def ModeSwitcher.analyze (session : Session) (urgency greed fear : Nat) :
    Session × ModeSwitchSignal :=
  let session :=
    { session with
      urgency_signals := session.urgency_signals + urgency,
      greed_signals := session.greed_signals + greed }
  let total_urgency := session.urgency_signals
  let total_greed := session.greed_signals
  let turn_count := session.turn_count
  if session.current_mode = ExtractionMode.patience then
    let decision := should_switch_to_aggressive turn_count total_urgency total_greed fear
    if decision.1 then
      (session, ⟨true, ExtractionMode.aggressive, decision.2, total_urgency,
        total_greed, turn_count⟩)
    else
      (session, ⟨false, session.current_mode, "Maintaining current mode",
        total_urgency, total_greed, turn_count⟩)
  else
    (session, ⟨false, session.current_mode, "Maintaining current mode",
      total_urgency, total_greed, turn_count⟩)

/-- Helper: a fixed session value used for the mode-switcher examples. -/
def exampleSession (mode : ExtractionMode) (turns urg grd : Nat) : Session :=
  ⟨"elderly_widow", mode, [], ExtractedEntities.empty, none, turns, urg, grd⟩

/-- C2: for every session and per-message detector counts, the analysis switches
exactly when the session is in PATIENCE, at least 4 turns have passed, and either
12 or more turns have passed, cumulative urgency reaches 3, cumulative greed
reaches 2, or this message has 2 or more fear tactics; the target mode is
AGGRESSIVE on a switch and otherwise the mode is kept (so a session already in
AGGRESSIVE is never switched by this analysis).  The three worked examples hold:
turn 3 with urgency 5 stays, turn 5 with cumulative urgency 3 switches citing
high urgency, and turn 12 with no signals switches citing maximum turns. -/
theorem mode_switcher_decision_rule :
    (∀ (s : Session) (urgency greed fear : Nat),
      ((ModeSwitcher.analyze s urgency greed fear).2.should_switch = true ↔
        (s.current_mode = ExtractionMode.patience ∧ 4 ≤ s.turn_count ∧
          (12 ≤ s.turn_count ∨ 3 ≤ s.urgency_signals + urgency ∨
            2 ≤ s.greed_signals + greed ∨ 2 ≤ fear))) ∧
      ((ModeSwitcher.analyze s urgency greed fear).2.new_mode =
        (if (ModeSwitcher.analyze s urgency greed fear).2.should_switch then
          ExtractionMode.aggressive
        else s.current_mode))) ∧
    ((ModeSwitcher.analyze (exampleSession ExtractionMode.patience 3 0 0) 5 0 0).2.should_switch
      = false) ∧
    ((ModeSwitcher.analyze (exampleSession ExtractionMode.patience 5 2 0) 1 0 0).2 =
      ⟨true, ExtractionMode.aggressive, "High urgency detected (3 signals)", 3, 0, 5⟩) ∧
    ((ModeSwitcher.analyze (exampleSession ExtractionMode.patience 12 0 0) 0 0 0).2 =
      ⟨true, ExtractionMode.aggressive, "Maximum patience turns reached (12)", 0, 0, 12⟩) ∧
    ((ModeSwitcher.analyze (exampleSession ExtractionMode.aggressive 20 9 9) 9 9 9).2.should_switch
      = false) := by
  refine ⟨fun s urgency greed fear => ?_, by decide, by decide, by decide, by decide⟩
  constructor
  · rcases s with ⟨pid, mode, hist, ents, cls, turns, urg, grd⟩
    cases mode
    · simp only [ModeSwitcher.analyze, should_switch_to_aggressive,
        MIN_TURNS_FOR_AGGRESSIVE, MAX_PATIENCE_TURNS, URGENCY_THRESHOLD,
        GREED_THRESHOLD]
      split_ifs <;> simp_all
    · simp [ModeSwitcher.analyze]
  · simp only [ModeSwitcher.analyze]
    split_ifs <;> simp_all

/-- A victim persona, from `Persona` in `honeypot/models/schemas.py`; the float
coefficients are modelled as rationals. -/
structure Persona where
  id : String
  name : String
  age : Nat
  description : String
  typing_speed : ℚ
  typo_rate : ℚ
  patience_prompt : String
  aggressive_prompt : String
deriving Repr

/-- Python `int(x)` on a rational: truncation toward zero. -/
def pyInt (q : ℚ) : ℤ :=
  if q < 0 then ⌈q⌉ else ⌊q⌋

/-- `ResponseHumanizer.calculate_typing_delay_ms` from `honeypot/agent/humanizer.py`.
The two `random.randint` draws are passed in explicitly: `think` is the 1000-3000
thinking draw and `extra` is the 1000-2000 elderly draw, added only when the
persona is over 60.  The result is the truncated total clamped to [1500, 8000]. -/
def calculate_typing_delay_ms (persona : Persona) (message : String)
    (think extra : ℤ) : ℤ :=
  let base_per_char : ℚ := 50
  let speed_multiplier : ℚ := 3/2 - persona.typing_speed
  let char_count : ℚ := message.length
  let delay := char_count * base_per_char * speed_multiplier
  let thinking_time : ℤ := think + (if 60 < persona.age then extra else 0)
  let total_delay := pyInt (delay + (thinking_time : ℚ))
  max 1500 (min total_delay 8000)

/-- C7: for every persona, message and outcome of the internal random draws, the
typing delay is the clamp to [1500, 8000] of `charCount * 50 * (1.5 - typingSpeed)`
plus the thinking draw plus the elderly draw when age exceeds 60 (truncated to an
integer), and in particular it always lies between 1500 and 8000 inclusive. -/
theorem typing_delay_formula_and_bounds :
    ∀ (persona : Persona) (message : String) (think extra : ℤ),
      calculate_typing_delay_ms persona message think extra =
        max 1500 (min (pyInt ((message.length : ℚ) * 50 * (3/2 - persona.typing_speed)
          + (think : ℚ) + (if 60 < persona.age then (extra : ℚ) else 0))) 8000) ∧
      1500 ≤ calculate_typing_delay_ms persona message think extra ∧
      calculate_typing_delay_ms persona message think extra ≤ 8000 := by
  intro persona message think extra
  have hform : calculate_typing_delay_ms persona message think extra =
      max 1500 (min (pyInt ((message.length : ℚ) * 50 * (3/2 - persona.typing_speed)
        + (think : ℚ) + (if 60 < persona.age then (extra : ℚ) else 0))) 8000) := by
    simp only [calculate_typing_delay_ms]
    congr 2
    split_ifs <;> push_cast <;> ring_nf
  refine ⟨hform, le_max_left _ _, ?_⟩
  rw [hform]
  exact max_le (by norm_num) (min_le_right _ _)

/-- First-match lookup in an insertion-ordered association list (Python dict read). -/
def alGet {α : Type} (d : List (String × α)) (k : String) : Option α :=
  match d with
  | [] => none
  | (k0, v0) :: rest => if k0 = k then some v0 else alGet rest k

/-- Python dict write: overwrite the binding in place if the key exists, else append. -/
def alSet {α : Type} (d : List (String × α)) (k : String) (v : α) : List (String × α) :=
  match d with
  | [] => [(k, v)]
  | (k0, v0) :: rest => if k0 = k then (k0, v) :: rest else (k0, v0) :: alSet rest k v

/-- Python `dict.update` semantics: fold the new bindings over the dict in order. -/
def alUpdate {α : Type} (d new : List (String × α)) : List (String × α) :=
  new.foldl (fun acc kv => alSet acc kv.1 kv.2) d

/-- Left-biased choice on options (first dictionary that knows the key wins). -/
def optOr {α : Type} (a b : Option α) : Option α :=
  match a with
  | some v => some v
  | none => b

/-- The threat-intelligence graph node store, from `ThreatGraph` in
`honeypot/intel/threat_graph.py`: the underlying `networkx.DiGraph` node map from
node id to its attribute dict.  Attribute values are modelled as strings; edges
are not needed by the claims about `add_node`. -/
structure ThreatGraph where
  nodes : List (String × List (String × String))
deriving Repr

/-- The empty threat graph (fresh `networkx.DiGraph`). -/
def ThreatGraph.emptyGraph : ThreatGraph := ⟨[]⟩

/-- `networkx.DiGraph.add_node` semantics: if the node exists its attribute dict is
updated with the new attributes (overwriting existing keys), otherwise a fresh
node is inserted with the given attributes. -/
def addNxNode (nodes : List (String × List (String × String))) (nid : String)
    (attrs : List (String × String)) : List (String × List (String × String)) :=
  match nodes with
  | [] => [(nid, alUpdate [] attrs)]
  | (id0, a0) :: rest =>
    if id0 = nid then (id0, alUpdate a0 attrs) :: rest
    else (id0, a0) :: addNxNode rest nid attrs

/-- The keyword attributes `add_node` passes to networkx: `type`, `value`, then the
caller metadata. -/
def nodeAttrsFor (node_type value : String) (metadata : List (String × String)) :
    List (String × String) :=
  ("type", node_type) :: ("value", value) :: metadata

/-- `ThreatGraph.add_node` from `honeypot/intel/threat_graph.py`: builds the node id
`type:value` and hands `type`, `value` and the metadata kwargs to
`networkx.DiGraph.add_node`; returns the updated graph and the node id.  The
networkx-unavailable branch is not modelled. -/
def ThreatGraph.add_node (g : ThreatGraph) (node_type value : String)
    (metadata : List (String × String)) : ThreatGraph × String :=
  let node_id := node_type ++ ":" ++ value
  (⟨addNxNode g.nodes node_id (nodeAttrsFor node_type value metadata)⟩, node_id)

/-- Reads one attribute of one node of the graph. -/
def ThreatGraph.nodeAttr (g : ThreatGraph) (nid k : String) : Option String :=
  match alGet g.nodes nid with
  | some attrs => alGet attrs k
  | none => none

/-- Helper: reading after a Python dict write. -/
theorem alGet_alSet {α : Type} (d : List (String × α)) (k k2 : String) (v : α) :
    alGet (alSet d k v) k2 = if k = k2 then some v else alGet d k2 := by
  induction d with
  | nil => by_cases h : k = k2 <;> simp [alSet, alGet, h]
  | cons hd rest ih =>
    obtain ⟨k0, v0⟩ := hd
    by_cases h0 : k0 = k <;> by_cases h2 : k0 = k2
    · simp_all [alSet, alGet]
    · simp_all [alSet, alGet]
    · simp_all [alSet, alGet]
      rw [if_neg (fun h => h0 h.symm)]
    · simp_all [alSet, alGet]

/-- Helper: first-match lookup distributes over append. -/
theorem alGet_append {α : Type} (a b : List (String × α)) (k : String) :
    alGet (a ++ b) k = optOr (alGet a k) (alGet b k) := by
  induction a with
  | nil => simp [alGet, optOr]
  | cons hd rest ih =>
    obtain ⟨k0, v0⟩ := hd
    by_cases h : k0 = k <;> simp_all [alGet, optOr]

/-- Helper: reading after a Python `dict.update`: the latest binding in the new
list wins, otherwise the old dict answers. -/
theorem alGet_alUpdate {α : Type} (d new : List (String × α)) (k : String) :
    alGet (alUpdate d new) k = optOr (alGet new.reverse k) (alGet d k) := by
  induction new generalizing d with
  | nil => simp [alUpdate, alGet, optOr]
  | cons hd rest ih =>
    obtain ⟨k0, v0⟩ := hd
    have step : alUpdate d ((k0, v0) :: rest) = alUpdate (alSet d k0 v0) rest := rfl
    rw [step, ih, List.reverse_cons, alGet_append, alGet_alSet]
    by_cases h : k0 = k <;> cases hrev : alGet rest.reverse k <;>
      simp [optOr, alGet, h, hrev]

/-- Helper: node lookup after a networkx `add_node`. -/
theorem alGet_addNxNode (nodes : List (String × List (String × String)))
    (nid k : String) (attrs : List (String × String)) :
    alGet (addNxNode nodes nid attrs) k =
      if nid = k then
        some (alUpdate ((alGet nodes nid).getD []) attrs)
      else alGet nodes k := by
  induction nodes with
  | nil => by_cases h : nid = k <;> simp [addNxNode, alGet, h]
  | cons hd rest ih =>
    obtain ⟨id0, a0⟩ := hd
    by_cases h0 : id0 = nid <;> by_cases hk : id0 = k
    · simp_all [addNxNode, alGet]
    · simp_all [addNxNode, alGet]
    · simp_all [addNxNode, alGet]
      rw [if_neg (fun h => h0 h.symm)]
    · simp_all [addNxNode, alGet]

/-- Helper: left-biased choice is idempotent in its first argument. -/
theorem optOr_self_assoc {α : Type} (a b : Option α) :
    optOr a (optOr a b) = optOr a b := by
  cases a <;> simp [optOr]

/-- C5 counterexample: adding the node `upi:scammer@paytm` first with metadata
`seen = a` and again with `seen = b` leaves `seen = b` in the graph, not the
first-written `a`: repeated adds DO overwrite existing metadata. -/
theorem add_node_overwrites_metadata_counterexample :
    (ThreatGraph.nodeAttr
      ((ThreatGraph.add_node
        ((ThreatGraph.add_node ThreatGraph.emptyGraph "upi" "scammer@paytm"
          [("seen", "a")]).1) "upi" "scammer@paytm" [("seen", "b")]).1)
      "upi:scammer@paytm" "seen" = some "b") ∧
    some "b" ≠ some "a" := by
  constructor
  · rfl
  · decide

/-- C5 amended: `ThreatGraph.add_node` has last-write-wins metadata: after adding a
node that already exists, each attribute reads as the newly supplied binding when
the new call mentions its key (latest mention winning) and as the previously
stored binding otherwise; and re-adding a node with identical metadata changes no
attribute (idempotence only up to identical metadata). -/
theorem add_node_last_write_wins :
    (∀ (g : ThreatGraph) (t v : String) (m1 m2 : List (String × String)) (k : String),
      ThreatGraph.nodeAttr
          ((ThreatGraph.add_node ((ThreatGraph.add_node g t v m1).1) t v m2).1)
          (t ++ ":" ++ v) k =
        optOr (alGet (nodeAttrsFor t v m2).reverse k)
          (ThreatGraph.nodeAttr ((ThreatGraph.add_node g t v m1).1) (t ++ ":" ++ v) k)) ∧
    (∀ (g : ThreatGraph) (t v : String) (m : List (String × String)) (k : String),
      ThreatGraph.nodeAttr
          ((ThreatGraph.add_node ((ThreatGraph.add_node g t v m).1) t v m).1)
          (t ++ ":" ++ v) k =
        ThreatGraph.nodeAttr ((ThreatGraph.add_node g t v m).1) (t ++ ":" ++ v) k) := by
  have key : ∀ (g : ThreatGraph) (t v : String) (m1 m2 : List (String × String))
      (k : String),
      ThreatGraph.nodeAttr
          ((ThreatGraph.add_node ((ThreatGraph.add_node g t v m1).1) t v m2).1)
          (t ++ ":" ++ v) k =
        optOr (alGet (nodeAttrsFor t v m2).reverse k)
          (ThreatGraph.nodeAttr ((ThreatGraph.add_node g t v m1).1) (t ++ ":" ++ v) k) := by
    intro g t v m1 m2 k
    simp [ThreatGraph.nodeAttr, ThreatGraph.add_node, alGet_addNxNode, alGet_alUpdate]
  refine ⟨key, fun g t v m k => ?_⟩
  rw [key g t v m m k]
  simp [ThreatGraph.nodeAttr, ThreatGraph.add_node, alGet_addNxNode, alGet_alUpdate,
    optOr_self_assoc]

/-- Python `str.lower` restricted to ASCII, which is all the entity strings use. -/
def pyLower (s : String) : String :=
  String.mk (s.data.map Char.toLower)

/-- `normalize_phone` from `honeypot/models/schemas.py`: keep only digits, strip a
leading `91` when more than 10 digits are present, then keep the last 10 digits. -/
def normalize_phone (phone : String) : String :=
  let digits := phone.data.filter (fun c => c.isDigit)
  let digits := if 10 < digits.length ∧ digits.take 2 = ['9', '1']
    then digits.drop 2 else digits
  if 10 ≤ digits.length then String.mk (digits.drop (digits.length - 10))
  else String.mk digits

/-- The common shape of the `seen`-dict deduplication loops in
`honeypot/models/schemas.py`: keep the first item for each key, in order. -/
def dedupByKey {α : Type} (key : α → String) : List α → List String → List α
  | [], _ => []
  | x :: xs, seen =>
    if key x ∈ seen then dedupByKey key xs seen
    else x :: dedupByKey key xs (key x :: seen)

/-- The `seen` dict key set after running the deduplication loop over a list. -/
def seenAfter {α : Type} (key : α → String) : List α → List String → List String
  | [], seen => seen
  | x :: xs, seen =>
    if key x ∈ seen then seenAfter key xs seen
    else seenAfter key xs (key x :: seen)

/-- `deduplicate_phones` from `honeypot/models/schemas.py`. -/
def deduplicate_phones (phones : List String) : List String :=
  dedupByKey normalize_phone phones []

/-- `deduplicate_case_insensitive` from `honeypot/models/schemas.py`. -/
def deduplicate_case_insensitive (items : List String) : List String :=
  dedupByKey pyLower items []

/-- `deduplicate_bank_accounts` from `honeypot/models/schemas.py`. -/
def deduplicate_bank_accounts (accounts : List BankAccount) : List BankAccount :=
  dedupByKey (fun a => a.account_number) accounts []

/-- `deduplicate_crypto` from `honeypot/models/schemas.py`. -/
def deduplicate_crypto (addresses : List CryptoAddress) : List CryptoAddress :=
  dedupByKey (fun a => a.address) addresses []

/-- Python `list(set(l))`: the distinct elements of `l` in an unspecified,
hash-determined order; modelled as first-occurrence order.  Theorems about the
merged `urls` field therefore only use membership and duplicate-freeness, which
are order-independent. -/
def pySetList (l : List String) : List String :=
  dedupByKey (fun s => s) l []

/-- `ExtractedEntities.merge_with_dedup` from `honeypot/models/schemas.py`. -/
def ExtractedEntities.merge_with_dedup (a b : ExtractedEntities) : ExtractedEntities :=
  ⟨deduplicate_case_insensitive (a.upi_ids ++ b.upi_ids),
   deduplicate_phones (a.phone_numbers ++ b.phone_numbers),
   deduplicate_bank_accounts (a.bank_accounts ++ b.bank_accounts),
   deduplicate_crypto (a.crypto_addresses ++ b.crypto_addresses),
   pySetList (a.urls ++ b.urls),
   deduplicate_case_insensitive (a.email_addresses ++ b.email_addresses)⟩

/-- Helper: the dedup loop drops everything whose key was already seen. -/
theorem dedupByKey_all_seen {α : Type} (key : α → String) (l : List α)
    (seen : List String) (h : ∀ x ∈ l, key x ∈ seen) :
    dedupByKey key l seen = [] := by
  induction l with
  | nil => rfl
  | cons x xs ih =>
    simp only [dedupByKey]
    rw [if_pos (h x (by simp))]
    exact ih (fun y hy => h y (by simp [hy]))

/-- Helper: the seen set only grows across the dedup loop. -/
theorem mem_seenAfter_of_mem {α : Type} (key : α → String) (l : List α)
    (seen : List String) (s : String) (hs : s ∈ seen) :
    s ∈ seenAfter key l seen := by
  induction l generalizing seen with
  | nil => exact hs
  | cons x xs ih =>
    simp only [seenAfter]
    split_ifs with h
    · exact ih seen hs
    · exact ih (key x :: seen) (by simp [hs])

/-- Helper: after the dedup loop, every key of the processed list has been seen. -/
theorem key_mem_seenAfter {α : Type} (key : α → String) (l : List α)
    (seen : List String) (x : α) (hx : x ∈ l) :
    key x ∈ seenAfter key l seen := by
  induction l generalizing seen with
  | nil => cases hx
  | cons y ys ih =>
    simp only [seenAfter]
    rcases List.mem_cons.mp hx with h | h
    · subst h
      split_ifs with hseen
      · exact mem_seenAfter_of_mem key ys seen _ hseen
      · exact mem_seenAfter_of_mem key ys _ _ (by simp)
    · split_ifs with hseen
      · exact ih seen h
      · exact ih (key y :: seen) h

/-- Helper: the dedup loop processes an append left to right, threading the seen set. -/
theorem dedupByKey_append {α : Type} (key : α → String) (l1 l2 : List α)
    (seen : List String) :
    dedupByKey key (l1 ++ l2) seen =
      dedupByKey key l1 seen ++ dedupByKey key l2 (seenAfter key l1 seen) := by
  induction l1 generalizing seen with
  | nil => rfl
  | cons x xs ih =>
    simp only [List.cons_append, dedupByKey, seenAfter]
    split_ifs with h
    · exact ih seen
    · rw [List.cons_append]
      exact congrArg (List.cons x) (ih (key x :: seen))

/-- Helper: deduplicating a list appended to itself equals deduplicating it once. -/
theorem dedupByKey_self_append {α : Type} (key : α → String) (l : List α)
    (seen : List String) :
    dedupByKey key (l ++ l) seen = dedupByKey key l seen := by
  rw [dedupByKey_append]
  rw [dedupByKey_all_seen key l _ (fun x hx => key_mem_seenAfter key l seen x hx)]
  exact List.append_nil _

/-- Helper: a list whose keys are distinct and unseen passes through the dedup
loop unchanged. -/
theorem dedupByKey_of_nodup {α : Type} (key : α → String) (l : List α)
    (seen : List String) (h1 : (l.map key).Nodup) (h2 : ∀ x ∈ l, key x ∉ seen) :
    dedupByKey key l seen = l := by
  induction l generalizing seen with
  | nil => rfl
  | cons x xs ih =>
    simp only [dedupByKey]
    rw [if_neg (h2 x (by simp))]
    congr 1
    apply ih
    · exact (List.nodup_cons.mp (by simpa using h1)).2
    · intro y hy
      simp only [List.mem_cons, not_or]
      refine ⟨?_, h2 y (by simp [hy])⟩
      intro hkey
      exact (List.nodup_cons.mp (by simpa using h1)).1 (hkey ▸ List.mem_map_of_mem key hy)

/-- Helper: the dedup loop output has pairwise-distinct keys, none of them seen. -/
theorem dedupByKey_keys_nodup {α : Type} (key : α → String) (l : List α)
    (seen : List String) :
    ((dedupByKey key l seen).map key).Nodup ∧
      ∀ s ∈ (dedupByKey key l seen).map key, s ∉ seen := by
  induction l generalizing seen with
  | nil => exact ⟨List.nodup_nil, by simp [dedupByKey]⟩
  | cons x xs ih =>
    simp only [dedupByKey]
    split_ifs with h
    · exact ih seen
    · obtain ⟨hnd, hout⟩ := ih (key x :: seen)
      refine ⟨List.nodup_cons.mpr ⟨?_, hnd⟩, ?_⟩
      · intro hmem
        exact hout _ hmem (by simp)
      · intro s hs
        rw [List.map_cons] at hs
        rcases List.mem_cons.mp hs with h0 | h0
        · exact h0 ▸ h
        · exact fun hseen => hout s h0 (List.mem_cons_of_mem _ hseen)

/-- All six categories of an `ExtractedEntities` value are deduplicated under
their normalized keys (the state the extractor and merger always produce). -/
def entitiesDeduped (x : ExtractedEntities) : Prop :=
  (x.upi_ids.map pyLower).Nodup ∧
  (x.phone_numbers.map normalize_phone).Nodup ∧
  (x.bank_accounts.map (fun a => a.account_number)).Nodup ∧
  (x.crypto_addresses.map (fun a => a.address)).Nodup ∧
  x.urls.Nodup ∧
  (x.email_addresses.map pyLower).Nodup

instance : DecidablePred entitiesDeduped := by
  intro x
  unfold entitiesDeduped
  infer_instance

/-- C3 counterexample: for `X` with UPI ids `["A", "a"]` (two case-variant spellings),
merging `X` with itself keeps only `"A"`, so the merged result does NOT have the
same contents as `X`: the claimed unconditional idempotence fails. -/
theorem merge_with_dedup_not_idempotent_counterexample :
    (ExtractedEntities.merge_with_dedup ⟨["A", "a"], [], [], [], [], []⟩
        ⟨["A", "a"], [], [], [], [], []⟩ ≠ ⟨["A", "a"], [], [], [], [], []⟩) ∧
    "a" ∈ (⟨["A", "a"], [], [], [], [], []⟩ : ExtractedEntities).upi_ids ∧
    "a" ∉ (ExtractedEntities.merge_with_dedup ⟨["A", "a"], [], [], [], [], []⟩
        ⟨["A", "a"], [], [], [], [], []⟩).upi_ids := by
  refine ⟨?_, by decide, by decide⟩
  intro h
  have := congrArg (fun e => e.upi_ids) h
  simp only at this
  exact absurd this (by decide)

/-- C3 amended: merging an `ExtractedEntities` value with itself preserves every
category exactly when the value is already deduplicated under the normalized keys
(case-insensitive for UPI ids and emails, last-10-digits for phones, exact account
number for banks, exact address for crypto, exact string for URLs) — the URL
category up to the unspecified iteration order of the Python set; and for every
pair of values, no category of the merged result contains two entries sharing the
same normalized key. -/
theorem merge_with_dedup_idempotent_on_deduped :
    (∀ x : ExtractedEntities, entitiesDeduped x →
      ((x.merge_with_dedup x).upi_ids = x.upi_ids ∧
       (x.merge_with_dedup x).phone_numbers = x.phone_numbers ∧
       (x.merge_with_dedup x).bank_accounts = x.bank_accounts ∧
       (x.merge_with_dedup x).crypto_addresses = x.crypto_addresses ∧
       (∀ u, u ∈ (x.merge_with_dedup x).urls ↔ u ∈ x.urls) ∧
       (x.merge_with_dedup x).urls.Nodup ∧
       (x.merge_with_dedup x).email_addresses = x.email_addresses)) ∧
    (∀ a b : ExtractedEntities, entitiesDeduped (a.merge_with_dedup b)) := by
  constructor
  · rintro x ⟨h1, h2, h3, h4, h5, h6⟩
    have hu : (x.merge_with_dedup x).upi_ids = x.upi_ids := by
      simp only [ExtractedEntities.merge_with_dedup, deduplicate_case_insensitive]
      rw [dedupByKey_self_append, dedupByKey_of_nodup pyLower _ _ h1 (by simp)]
    have hp : (x.merge_with_dedup x).phone_numbers = x.phone_numbers := by
      simp only [ExtractedEntities.merge_with_dedup, deduplicate_phones]
      rw [dedupByKey_self_append, dedupByKey_of_nodup normalize_phone _ _ h2 (by simp)]
    have hb : (x.merge_with_dedup x).bank_accounts = x.bank_accounts := by
      simp only [ExtractedEntities.merge_with_dedup, deduplicate_bank_accounts]
      rw [dedupByKey_self_append, dedupByKey_of_nodup _ _ _ h3 (by simp)]
    have hc : (x.merge_with_dedup x).crypto_addresses = x.crypto_addresses := by
      simp only [ExtractedEntities.merge_with_dedup, deduplicate_crypto]
      rw [dedupByKey_self_append, dedupByKey_of_nodup _ _ _ h4 (by simp)]
    have hurl : (x.merge_with_dedup x).urls = x.urls := by
      simp only [ExtractedEntities.merge_with_dedup, pySetList]
      rw [dedupByKey_self_append, dedupByKey_of_nodup _ _ _ (by simpa using h5) (by simp)]
    have he : (x.merge_with_dedup x).email_addresses = x.email_addresses := by
      simp only [ExtractedEntities.merge_with_dedup, deduplicate_case_insensitive]
      rw [dedupByKey_self_append, dedupByKey_of_nodup pyLower _ _ h6 (by simp)]
    exact ⟨hu, hp, hb, hc, fun u => by rw [hurl], by rw [hurl]; exact h5, he⟩
  · intro a b
    refine ⟨(dedupByKey_keys_nodup _ _ _).1, (dedupByKey_keys_nodup _ _ _).1,
      (dedupByKey_keys_nodup _ _ _).1, (dedupByKey_keys_nodup _ _ _).1, ?_,
      (dedupByKey_keys_nodup _ _ _).1⟩
    have h := (dedupByKey_keys_nodup (fun s => s) (a.urls ++ b.urls) []).1
    simpa using h

/-- C3 witness: the amended idempotence applied to a concrete deduplicated value. -/
theorem merge_with_dedup_idempotent_witness :
    entitiesDeduped ⟨["Scam@ybl"], ["+91 98765 43210"], [⟨"123456789", none, none⟩],
      [⟨"0xAB", "ETH"⟩], ["https://a.in"], ["a@b.in"]⟩ ∧
    ((⟨["Scam@ybl"], ["+91 98765 43210"], [⟨"123456789", none, none⟩],
      [⟨"0xAB", "ETH"⟩], ["https://a.in"], ["a@b.in"]⟩ :
        ExtractedEntities).merge_with_dedup
      ⟨["Scam@ybl"], ["+91 98765 43210"], [⟨"123456789", none, none⟩],
      [⟨"0xAB", "ETH"⟩], ["https://a.in"], ["a@b.in"]⟩).upi_ids = ["Scam@ybl"] :=
  ⟨by decide, ((merge_with_dedup_idempotent_on_deduped).1 _ (by decide)).1⟩

/-- Characters accepted by the regex class with whitespace, dot and hyphen used as
separators in `INDIAN_PHONE_PATTERN` (ASCII whitespace as in Python `\s`). -/
def isSepChar (c : Char) : Bool :=
  c = ' ' || c = '\t' || c = '\n' || c = '\r' || c = '\x0b' || c = '\x0c' ||
    c = '.' || c = '-'

/-- Match exactly `n` digits, returning them and the remaining input. -/
def takeDigits : Nat → List Char → Option (List Char × List Char)
  | 0, cs => some ([], cs)
  | _ + 1, [] => none
  | n + 1, c :: cs =>
    if c.isDigit then
      match takeDigits n cs with
      | some (ds, rest) => some (c :: ds, rest)
      | none => none
    else none

/-- The core of `INDIAN_PHONE_PATTERN` after the optional prefix: a digit 6-9,
four digits, an optional separator, five digits.  When a separator is present but
not followed by five digits the regex backtracks to the empty separator, which
then fails because the separator character is not a digit; hence those branches
return `none`. -/
def phoneMatchCore : List Char → Option (List Char × List Char)
  | [] => none
  | c :: cs =>
    if c = '6' ∨ c = '7' ∨ c = '8' ∨ c = '9' then
      match takeDigits 4 cs with
      | none => none
      | some (d4, rest) =>
        match rest with
        | [] => none
        | s :: rest2 =>
          if isSepChar s then
            match takeDigits 5 rest2 with
            | some (d5, rest3) => some (c :: (d4 ++ s :: d5), rest3)
            | none => none
          else
            match takeDigits 5 rest with
            | some (d5, rest3) => some (c :: (d4 ++ d5), rest3)
            | none => none
    else none

/-- One attempted match of `INDIAN_PHONE_PATTERN` at a fixed start position,
including the alternation of the optional prefix: first `+91` with then without a
separator, then `0`, then the empty prefix.  Failed prefix alternatives fall
through to later ones exactly as the regex engine backtracks; alternatives that
put a non-digit under the `[6-9]` class can never succeed and are folded into
`none`. -/
def phoneMatchAt (cs : List Char) : Option (List Char × List Char) :=
  match cs with
  | '+' :: '9' :: '1' :: rest =>
    (match rest with
     | s :: rest2 =>
       if isSepChar s then
         match phoneMatchCore rest2 with
         | some (m, r) => some ('+' :: '9' :: '1' :: s :: m, r)
         | none => none
       else
         match phoneMatchCore rest with
         | some (m, r) => some ('+' :: '9' :: '1' :: m, r)
         | none => none
     | [] => none)
  | '0' :: rest =>
    (match phoneMatchCore rest with
     | some (m, r) => some ('0' :: m, r)
     | none => phoneMatchCore ('0' :: rest))
  | _ => phoneMatchCore cs

/-- The `re.findall` scan for `INDIAN_PHONE_PATTERN`: try a match at each position
left to right, continuing after the end of each match.  Fuelled recursion; the
initial fuel of length + 1 is ample since every step consumes input. -/
def phoneFindAux : Nat → List Char → List String
  | 0, _ => []
  | fuel + 1, cs =>
    match cs with
    | [] => []
    | _ :: t =>
      match phoneMatchAt cs with
      | some (m, r) => String.mk m :: phoneFindAux fuel r
      | none => phoneFindAux fuel t

/-- `INDIAN_PHONE_PATTERN.findall` from `honeypot/detection/patterns.py`. -/
def indianPhoneFindall (text : String) : List String :=
  phoneFindAux (text.length + 1) text.data

/-- The per-match normalization of `EntityExtractor._extract_phone_numbers`: keep
only digits, strip a leading `91` when more than 10 digits remain, and accept
exactly 10 digits starting with 6-9, returning the normal-form key. -/
def phoneMatchNorm (m : String) : Option String :=
  let digits := m.data.filter (fun c => c.isDigit)
  let digits := if 10 < digits.length ∧ digits.take 2 = ['9', '1']
    then digits.drop 2 else digits
  match digits.head? with
  | some c =>
    if digits.length = 10 ∧ (c = '6' ∨ c = '7' ∨ c = '8' ∨ c = '9') then
      some (String.mk digits)
    else none
  | none => none

/-- The display formatting of `_extract_phone_numbers`. -/
def formatPhone (digits : List Char) : String :=
  "+91 " ++ String.mk (digits.take 5) ++ " " ++ String.mk (digits.drop 5)

/-- The seen-set loop of `EntityExtractor._extract_phone_numbers`. -/
def extractPhonesLoop : List String → List String → List String
  | [], _ => []
  | m :: ms, seen =>
    match phoneMatchNorm m with
    | some key =>
      if key ∈ seen then extractPhonesLoop ms seen
      else formatPhone key.data :: extractPhonesLoop ms (key :: seen)
    | none => extractPhonesLoop ms seen

/-- `EntityExtractor._extract_phone_numbers` from `honeypot/detection/extractors.py`. -/
def extract_phone_numbers (text : String) : List String :=
  extractPhonesLoop (indianPhoneFindall text) []

/-- Helper: the phone seen-set loop equals normalize, dedup by key, then format. -/
theorem extractPhonesLoop_eq (ms : List String) (seen : List String) :
    extractPhonesLoop ms seen =
      (dedupByKey (fun s => s) (ms.filterMap phoneMatchNorm) seen).map
        (fun k => formatPhone k.data) := by
  induction ms generalizing seen with
  | nil => rfl
  | cons m ms ih =>
    rw [List.filterMap_cons]
    cases h : phoneMatchNorm m with
    | none =>
      simp only [extractPhonesLoop, h]
      exact ih seen
    | some key =>
      simp only [extractPhonesLoop, h, dedupByKey]
      split_ifs with hmem
      · exact ih seen
      · rw [List.map_cons]
        exact congrArg _ (ih _)

/-- C6: for every input, `_extract_phone_numbers` normalizes each regex match (all
digits kept, a leading 91 dropped when more than 10 digits remain, only
exactly-10-digit results starting 6-9 accepted), deduplicates by the 10-digit
normal form keeping first occurrences, and formats as `+91 XXXXX XXXXX`; and the
worked example collapses both spellings to the single entry `+91 98765 43210`. -/
theorem phone_extraction_normalize_dedup_format :
    (∀ text : String,
      extract_phone_numbers text =
        (dedupByKey (fun s => s) ((indianPhoneFindall text).filterMap phoneMatchNorm)
          []).map (fun k => formatPhone k.data)) ∧
    extract_phone_numbers "call me at +91 98765 43210 or 9876543210" =
      ["+91 98765 43210"] := by
  constructor
  · intro text
    exact extractPhonesLoop_eq _ []
  · decide

/-- Python regex word characters (`\w`), restricted to ASCII as all entity inputs are. -/
def isWordChar (c : Char) : Bool :=
  c.isAlphanum || c = '_'

/-- Greedy-with-backtracking attempt of `\b\d{9,18}\b` at one position: try runs of
length `j` down to 9 digits, each requiring a word boundary after (end of input or
a non-word character). -/
def bankTryLens (cs : List Char) : Nat → Option (List Char × List Char)
  | 0 => none
  | j + 1 =>
    if j + 1 < 9 then none
    else
      let pre := cs.take (j + 1)
      let rest := cs.drop (j + 1)
      if pre.length = j + 1 ∧ pre.all (fun c => c.isDigit) ∧
          (match rest.head? with
           | none => true
           | some c => ! isWordChar c) = true then
        some (pre, rest)
      else bankTryLens cs j

/-- The `re.findall` scan for `BANK_ACCOUNT_PATTERN` (9-18 digit runs between word
boundaries), tracking the previous character for the leading boundary. -/
def bankFindAux : Nat → Option Char → List Char → List String
  | 0, _, _ => []
  | fuel + 1, prev, cs =>
    match cs with
    | [] => []
    | c :: t =>
      if (match prev with
          | none => true
          | some p => ! isWordChar p) = true then
        match bankTryLens cs 18 with
        | some (m, rest) => String.mk m :: bankFindAux fuel (some (m.getLastD c)) rest
        | none => bankFindAux fuel (some c) t
      else bankFindAux fuel (some c) t

/-- `BANK_ACCOUNT_PATTERN.findall` from `honeypot/detection/patterns.py`. -/
def bankAccountFindall (text : String) : List String :=
  bankFindAux (text.length + 1) none text.data

/-- One attempted match of the IFSC pattern (4 letters, a literal 0, 6
alphanumerics, word boundaries both sides, case-insensitive) at one position. -/
def ifscTryMatch (cs : List Char) : Option (List Char × List Char) :=
  let pre := cs.take 11
  let rest := cs.drop 11
  if pre.length = 11 ∧ (pre.take 4).all (fun c => c.isAlpha) ∧
      pre.drop 4 ≠ [] ∧ (pre.drop 4).head? = some '0' ∧
      (pre.drop 5).all (fun c => c.isAlphanum) ∧
      (match rest.head? with
       | none => true
       | some c => ! isWordChar c) = true then
    some (pre, rest)
  else none

/-- The `re.findall` scan for `IFSC_PATTERN`. -/
def ifscFindAux : Nat → Option Char → List Char → List String
  | 0, _, _ => []
  | fuel + 1, prev, cs =>
    match cs with
    | [] => []
    | c :: t =>
      if (match prev with
          | none => true
          | some p => ! isWordChar p) = true then
        match ifscTryMatch cs with
        | some (m, rest) => String.mk m :: ifscFindAux fuel (some (m.getLastD c)) rest
        | none => ifscFindAux fuel (some c) t
      else ifscFindAux fuel (some c) t

/-- `IFSC_PATTERN.findall` from `honeypot/detection/patterns.py`. -/
def ifscFindall (text : String) : List String :=
  ifscFindAux (text.length + 1) none text.data

/-- Python `str.upper` restricted to ASCII. -/
def pyUpper (s : String) : String :=
  String.mk (s.data.map Char.toUpper)

/-- The IFSC-prefix to bank-name table of `EntityExtractor._bank_from_ifsc`. -/
def BANK_IFSC_MAP : List (String × String) :=
  [("SBIN", "State Bank of India"), ("HDFC", "HDFC Bank"), ("ICIC", "ICICI Bank"),
   ("AXIS", "Axis Bank"), ("KKBK", "Kotak Mahindra Bank"), ("UTIB", "Axis Bank"),
   ("PUNB", "Punjab National Bank"), ("BARB", "Bank of Baroda"),
   ("CNRB", "Canara Bank"), ("UBIN", "Union Bank of India"), ("IDIB", "IDBI Bank"),
   ("YESB", "Yes Bank"), ("INDB", "IndusInd Bank"), ("FDRL", "Federal Bank"),
   ("IDFB", "IDFC First Bank")]

/-- `EntityExtractor._bank_from_ifsc` from `honeypot/detection/extractors.py`. -/
def bank_from_ifsc (ifsc : String) : Option String :=
  if ifsc = "" then none
  else alGet BANK_IFSC_MAP (pyUpper (String.mk (ifsc.data.take 4)))

/-- The validation check `len(acc_num) == 10 and acc_num[0] in "6789"` of
`_extract_bank_accounts` (the value looks like a phone number). -/
def looksLikePhone (acc : String) : Bool :=
  decide (acc.length = 10) &&
    (match acc.data.head? with
     | some c => c = '6' || c = '7' || c = '8' || c = '9'
     | none => false)

/-- The seen-set loop of `EntityExtractor._extract_bank_accounts`: skip duplicates,
skip 10-digit values starting 6-9 (phone shaped), skip values shorter than 9
digits, and pair accepted accounts with the first IFSC found in the text. -/
def extractBanksLoop (ifsc0 : Option String) : List String → List String → List BankAccount
  | [], _ => []
  | acc :: ms, seen =>
    if acc ∈ seen then extractBanksLoop ifsc0 ms seen
    else if looksLikePhone acc then extractBanksLoop ifsc0 ms seen
    else if acc.length < 9 then extractBanksLoop ifsc0 ms seen
    else
      ⟨acc, ifsc0, ifsc0.bind bank_from_ifsc⟩ :: extractBanksLoop ifsc0 ms (acc :: seen)

/-- `EntityExtractor._extract_bank_accounts` from `honeypot/detection/extractors.py`. -/
def extract_bank_accounts (text : String) : List BankAccount :=
  extractBanksLoop ((ifscFindall text).head?.map pyUpper) (bankAccountFindall text) []

/-- The premise of the C9 claim: the input contains a contiguous digit run in which
some digit 6-9 is followed by at least 9 more digits. -/
def hasTenDigitRunAux : List Char → Bool
  | [] => false
  | c :: rest =>
    ((c = '6' || c = '7' || c = '8' || c = '9') &&
      ((c :: rest).take 10).all (fun d => d.isDigit) &&
      decide (10 ≤ (c :: rest).length)) || hasTenDigitRunAux rest

/-- String form of the C9 claim premise. -/
def hasTenDigitRun (s : String) : Bool :=
  hasTenDigitRunAux s.data

/-- C9 counterexample: the input `06789012345` satisfies the claim premise (the
digit 6 is followed by 9 more digits inside a contiguous run), yet the extractor
reports NO phone number at all: the optional `0` prefix of the regex absorbs the
leading zero, producing an 11-digit match that normalization rejects.  So the
universal form of the claim is false. -/
theorem spurious_phone_claim_counterexample :
    hasTenDigitRun "06789012345" = true ∧
    extract_phone_numbers "06789012345" = [] := by
  constructor
  · decide
  · decide

/-- C9 amended: the missing word-boundary anchors do make a 16-digit bank account
number double-report when the regex match aligns with the 10-digit window: the
input `1234567890123456` is extracted both as the bank account `1234567890123456`
and as the spurious phone `+91 67890 12345` built from its internal substring
`6789012345`.  (The universal form over all digit runs fails, see the
counterexample: an absorbed `0`/`+91` prefix can spoil normalization.) -/
theorem sixteen_digit_account_double_extraction :
    extract_bank_accounts "1234567890123456" =
      [⟨"1234567890123456", none, none⟩] ∧
    extract_phone_numbers "1234567890123456" = ["+91 67890 12345"] := by
  constructor
  · decide
  · decide

/-- `ExtractedEntities.to_list` from `honeypot/models/schemas.py`: the flat display
strings, in category order.  Python `b.ifsc_code or 'N/A'` is falsy for both
`None` and the empty string. -/
def ExtractedEntities.to_list (e : ExtractedEntities) : List String :=
  (e.upi_ids.map (fun u => "UPI: " ++ u)) ++
  (e.phone_numbers.map (fun p => "Phone: " ++ p)) ++
  (e.bank_accounts.map (fun b => "Bank: " ++ b.account_number ++ " (" ++
    (match b.ifsc_code with
     | some s => if s = "" then "N/A" else s
     | none => "N/A") ++ ")")) ++
  (e.crypto_addresses.map (fun c => "Crypto: " ++ String.mk (c.address.data.take 20)
    ++ "...")) ++
  (e.urls.map (fun u => "URL: " ++ u)) ++
  (e.email_addresses.map (fun a => "Email: " ++ a))

/-- `analyze_and_switch` from `honeypot/agent/mode_switcher.py`: run the analysis
and, when it signals a switch, set the session mode to the new mode. -/
def analyze_and_switch (session : Session) (urgency greed fear : Nat) :
    Session × ModeSwitchSignal :=
  let res := ModeSwitcher.analyze session urgency greed fear
  if res.2.should_switch then
    ({ res.1 with current_mode := res.2.new_mode }, res.2)
  else (res.1, res.2)

/-- The per-turn outcomes of the external and randomized calls inside
`ConversationAgent.process_scammer_message`, passed in explicitly:
the extractor result on the scammer message, the classifier outcome (`none`
models a caught provider error), the three pattern-library detector counts on the
message, the generated reply (`none` models a caught provider error, in which
case the fallback reply is used), the humanized form of the reply, and the
computed typing delay. -/
structure TurnOracle where
  entities : ExtractedEntities
  classification : Option ScamClassification
  urgency : Nat
  greed : Nat
  fear : Nat
  response_generated : Option String
  fallback_response : String
  humanized_response : String
  typing_delay : Int

/-- `ConversationAgent.process_scammer_message` from `honeypot/agent/conversation.py`:
extract and merge entities, classify once, analyze for a mode switch, record the
scammer message, generate (or fall back), humanize, record the honeypot reply, and
return the reply, delay, new entity strings and switch signal. -/
def process_scammer_message (session : Session) (scammer_message : String)
    (o : TurnOracle) : Session × String × Int × List String × ModeSwitchSignal :=
  let new_entity_strings := o.entities.to_list
  let session1 := { session with
    extracted_entities := session.extracted_entities.merge_with_dedup o.entities }
  let session2 := if session1.scam_classification.isNone then
      { session1 with scam_classification := o.classification }
    else session1
  let res := analyze_and_switch session2 o.urgency o.greed o.fear
  let session4 := res.1.add_message MessageRole.scammer scammer_message none
    new_entity_strings
  let raw_response := o.response_generated.getD o.fallback_response
  let session5 := session4.add_message MessageRole.honeypot o.humanized_response
    (some raw_response) []
  (session5, o.humanized_response, o.typing_delay, new_entity_strings, res.2)

/-- Helper: the analysis mutates only the signal counters of the session. -/
theorem analyze_fst_eq (s : Session) (u g f : Nat) :
    (ModeSwitcher.analyze s u g f).1 =
      { s with urgency_signals := s.urgency_signals + u,
               greed_signals := s.greed_signals + g } := by
  simp only [ModeSwitcher.analyze]
  split_ifs <;> rfl

/-- Helper: the signal reports the turn count at evaluation time. -/
theorem analyze_snd_turn_count (s : Session) (u g f : Nat) :
    (ModeSwitcher.analyze s u g f).2.turn_count = s.turn_count := by
  simp only [ModeSwitcher.analyze]
  split_ifs <;> rfl

/-- C10: every completed turn appends exactly two messages to the transcript (the
scammer message with its entity strings, then the honeypot reply carrying the raw
pre-humanization text) and raises the session turn counter by exactly 2, because
`Session.add_message` increments it once per message of either role; and the
switch signal the turn produces carries the turn count as it stood BEFORE these
two appends, so the 4- and 12-turn thresholds count messages of both roles. -/
theorem process_message_appends_two_and_counts_both_roles :
    ∀ (session : Session) (msg : String) (o : TurnOracle),
      ((process_scammer_message session msg o).1.conversation_history =
        session.conversation_history ++
          [⟨MessageRole.scammer, msg, none, o.entities.to_list⟩,
           ⟨MessageRole.honeypot, o.humanized_response,
             some (o.response_generated.getD o.fallback_response), []⟩]) ∧
      ((process_scammer_message session msg o).1.turn_count =
        session.turn_count + 2) ∧
      (∀ (s : Session) (r : MessageRole) (c : String) (rc : Option String)
        (ents : List String),
        (Session.add_message s r c rc ents).turn_count = s.turn_count + 1) ∧
      ((process_scammer_message session msg o).2.2.2.2.turn_count =
        session.turn_count) := by
  intro session msg o
  refine ⟨?_, ?_, fun s r c rc ents => rfl, ?_⟩
  · simp only [process_scammer_message, Session.add_message, analyze_and_switch,
      analyze_fst_eq]
    split_ifs <;> simp [List.append_assoc]
  · simp only [process_scammer_message, Session.add_message, analyze_and_switch,
      analyze_fst_eq]
    split_ifs <;> simp
  · simp only [process_scammer_message, analyze_and_switch, analyze_snd_turn_count]
    split_ifs <;> simp [analyze_snd_turn_count]

/-- Bool test that `needle` occurs as a contiguous substring of the character list
(Python `needle in haystack`). -/
def listHasInfix (needle : List Char) : List Char → Bool
  | [] => needle.isPrefixOf []
  | c :: t => needle.isPrefixOf (c :: t) || listHasInfix needle t

/-- Python substring containment `needle in haystack`. -/
def strContainsSub (haystack needle : String) : Bool :=
  listHasInfix needle.data haystack.data

/-- Python `" ".join(segments)`. -/
def joinSpace : List String → String
  | [] => ""
  | [s] => s
  | s :: rest => s ++ " " ++ joinSpace rest

/-- The weighted keyword table `SCAM_INDICATORS` of `honeypot/voice/detector.py`,
in source (dict insertion) order; float weights as rationals. -/
def SCAM_INDICATORS : List (String × ℚ) :=
  [("your computer", 3/10), ("virus", 4/10), ("malware", 4/10), ("microsoft", 2/10),
   ("tech support", 5/10), ("remote access", 5/10), ("infected", 4/10),
   ("hacked", 4/10),
   ("congratulations", 3/10), ("you have won", 5/10), ("lucky winner", 5/10),
   ("prize money", 5/10), ("lottery", 5/10), ("lucky draw", 5/10), ("kbc", 6/10),
   ("kaun banega crorepati", 6/10), ("lakh", 2/10), ("crore", 2/10),
   ("kyc", 3/10), ("kyc verification", 5/10), ("account blocked", 5/10),
   ("account suspended", 5/10), ("update your details", 4/10),
   ("bank account", 2/10), ("pan card", 2/10), ("aadhaar", 2/10), ("upi", 2/10),
   ("paytm", 2/10), ("google pay", 2/10), ("phonepe", 2/10),
   ("urgent", 3/10), ("immediately", 3/10), ("right now", 3/10),
   ("within 24 hours", 4/10), ("last chance", 4/10), ("act now", 4/10),
   ("don\x27t delay", 4/10), ("limited time", 3/10),
   ("send money", 5/10), ("transfer", 2/10), ("processing fee", 5/10),
   ("registration fee", 5/10), ("tax", 2/10), ("pay first", 5/10),
   ("advance payment", 5/10),
   ("government", 2/10), ("police", 3/10), ("income tax", 3/10),
   ("department", 2/10), ("official", 2/10), ("officer", 2/10),
   ("arrest", 4/10), ("legal action", 4/10), ("case filed", 4/10), ("fir", 4/10),
   ("court", 3/10), ("jail", 4/10)]

/-- The `SCAM_TYPE_PATTERNS` regexes of `honeypot/voice/detector.py`.  Every
pattern there is an alternation and concatenation of literals with at most an
optional literal tail, so `re.search(pattern, text)` holds exactly when one of
the expanded literal alternatives is a substring of the text; each pattern is
represented by its list of literal alternatives. -/
def SCAM_TYPE_PATTERNS : List (String × List (List String)) :=
  [("tech_support",
     [["your computer is", "your computer has", "your pc is", "your pc has",
       "your laptop is", "your laptop has"],
      ["microsoft", "windows", "apple"],
      ["virus", "malware", "infected", "hacked"],
      ["remote access", "remote desktop"]]),
   ("lottery",
     [["won", "winner", "prize", "lottery"],
      ["kbc", "lucky draw"],
      ["lakh ", "crore "],
      ["congratulations"]]),
   ("upi_fraud",
     [["kyc", "account blocked", "account suspended"],
      ["bank", "upi", "paytm", "phonepe"],
      ["update your details", "update your information", "update details",
       "update information"],
      ["pan ", "aadhaar "]]),
   ("investment",
     [["invest", "investment", "returns"],
      ["double your money", "triple your money"],
      ["guaranteed returns", "guaranteed profit"],
      ["crypto", "bitcoin", "trading"]])]

/-- Python `max(scores, key=scores.get)` over an insertion-ordered dict: the first
key attaining the maximal value. -/
def maxKeyAux : List (String × Nat) → String → Nat → String
  | [], bk, _ => bk
  | (k, v) :: rest, bk, bv =>
    if v > bv then maxKeyAux rest k v else maxKeyAux rest bk bv

/-- `VoiceScamDetector._detect_scam_type` from `honeypot/voice/detector.py`: count
pattern hits per category; all zero gives `unknown`, otherwise the first category
with the most hits. -/
def detect_scam_type (text : String) : String :=
  let scores := SCAM_TYPE_PATTERNS.map (fun p =>
    (p.1, (p.2.filter (fun alts => alts.any (fun lit => strContainsSub text lit))).length))
  if scores.all (fun s => s.2 = 0) then "unknown"
  else
    match scores with
    | [] => "unknown"
    | (k, v) :: rest => maxKeyAux rest k v

/-- Result record of the voice analysis, from `ScamAnalysis` in
`honeypot/voice/detector.py`. -/
structure ScamAnalysis where
  score : ℚ
  scam_type : String
  indicators : List String
  is_scammer : Bool
  confidence : String
deriving DecidableEq, Repr

/-- Mutable state of `VoiceScamDetector` in `honeypot/voice/detector.py`. -/
structure VoiceScamDetector where
  threshold : ℚ
  history : List String
  cumulative_score : ℚ
  detected_indicators : List String
deriving Repr

/-- `create_detector` from `honeypot/voice/detector.py` (fresh state). -/
def create_detector (threshold : ℚ) : VoiceScamDetector :=
  ⟨threshold, [], 0, []⟩

/-- Python two-argument `min` on rationals (same value as `Min.min`), written with
an `if` so that concrete instances reduce in the kernel. -/
def pyMin (a b : ℚ) : ℚ := if a ≤ b then a else b

/-- Python two-argument `max` on rationals (same value as `Max.max`), written with
an `if` so that concrete instances reduce in the kernel. -/
def pyMax (a b : ℚ) : ℚ := if b ≤ a then a else b

/-- Round half to even at integer precision. -/
def roundHalfEven (q : ℚ) : ℤ :=
  let f := ⌊q⌋
  let r := q - (f : ℚ)
  if r < 1/2 then f
  else if r > 1/2 then f + 1
  else if f % 2 = 0 then f else f + 1

/-- Python `round(x, 2)` modelled on exact rationals with bankers rounding (Python
rounds the IEEE double; the inputs reached by the theorems are far from ties). -/
def pyRound2 (q : ℚ) : ℚ :=
  (roundHalfEven (q * 100) : ℚ) / 100

/-- The 5-segment lower-cased context window `analyze` builds. -/
def voiceContext (st : VoiceScamDetector) (transcript : String) : String :=
  let history := st.history ++ [transcript]
  pyLower (joinSpace (history.drop (history.length - 5)))

/-- The keyword-table entries whose (lower-cased) keyword occurs in the context,
in table order. -/
def matchedIndicators (context : String) : List (String × ℚ) :=
  SCAM_INDICATORS.filter (fun kw => strContainsSub context (pyLower kw.1))

/-- The weighted-keyword accumulation of `analyze`: the loop adds the weight and
appends the keyword exactly for the matched entries, in table order, so it is the
fold over the matched sublist. -/
def indicatorScore (context : String) : ℚ × List String :=
  ((matchedIndicators context).foldl (fun a kw => a + kw.2) 0,
   (matchedIndicators context).map (fun kw => kw.1))

/-- `VoiceScamDetector.analyze` from `honeypot/voice/detector.py`: append the
segment, score the 5-segment context, cap at 1, update the rolling cumulative
score, accumulate indicators, and report the rounded max of segment and
cumulative score with banded confidence and thresholded verdict. -/
def VoiceScamDetector.analyze (st : VoiceScamDetector) (transcript : String) :
    VoiceScamDetector × ScamAnalysis :=
  let history := st.history ++ [transcript]
  let context := voiceContext st transcript
  let sc := indicatorScore context
  let indicators := sc.2
  let scam_type := detect_scam_type context
  let score := pyMin sc.1 1
  let cumulative := st.cumulative_score * (7/10) + score * (3/10)
  let detected := pySetList (st.detected_indicators ++ indicators)
  let final_score := pyMax score cumulative
  let confidence := if final_score < 3/10 then "low"
    else if final_score < 6/10 then "medium"
    else "high"
  (⟨st.threshold, history, cumulative, detected⟩,
   ⟨pyRound2 final_score, scam_type, indicators,
     decide (final_score ≥ st.threshold), confidence⟩)

/-- Run the detector over a sequence of segments, keeping the final state. -/
def voiceRun (st : VoiceScamDetector) (segments : List String) : VoiceScamDetector :=
  segments.foldl (fun s seg => (VoiceScamDetector.analyze s seg).1) st

/-- C8 counterexample: after the segments `urgent, x, x, x, x` the sixth segment
`x` has segment score 0 and cumulative score 0.1747053, so the claimed reported
score `max(segment, cumulative)` would be 0.1747053 — but the detector reports
0.17, the 2-decimal rounding.  The reported score is strictly below the
cumulative score, hence below any `max(segment, cumulative)`. -/
theorem voice_reported_score_rounding_counterexample :
    ((VoiceScamDetector.analyze
        (voiceRun (create_detector (6/10)) ["urgent", "x", "x", "x", "x"]) "x").2.score
      = 17/100) ∧
    ((VoiceScamDetector.analyze
        (voiceRun (create_detector (6/10)) ["urgent", "x", "x", "x", "x"]) "x").1.cumulative_score
      = 1747053/10000000) ∧
    ((VoiceScamDetector.analyze
        (voiceRun (create_detector (6/10)) ["urgent", "x", "x", "x", "x"]) "x").2.score
      < (VoiceScamDetector.analyze
        (voiceRun (create_detector (6/10)) ["urgent", "x", "x", "x", "x"]) "x").1.cumulative_score) := by
  have e1 : (VoiceScamDetector.analyze (create_detector (6/10)) "urgent").1
      = ⟨6/10, ["urgent"], 9/100, ["urgent"]⟩ := by
    have hm : matchedIndicators (voiceContext (create_detector (6/10)) "urgent")
        = [("urgent", 3/10)] := rfl
    simp only [VoiceScamDetector.analyze, create_detector,
      VoiceScamDetector.mk.injEq, indicatorScore, hm, List.foldl, List.map]
    refine ⟨?_, ?_, ?_, ?_⟩ <;>
      first
        | trivial
        | norm_num [pyMin]
  have e2 : (VoiceScamDetector.analyze
      (⟨6/10, ["urgent"], 9/100, ["urgent"]⟩ : VoiceScamDetector) "x").1
      = ⟨6/10, ["urgent", "x"], 153/1000, ["urgent"]⟩ := by
    have hm : matchedIndicators (voiceContext
        (⟨6/10, ["urgent"], 9/100, ["urgent"]⟩ : VoiceScamDetector) "x")
        = [("urgent", 3/10)] := rfl
    simp only [VoiceScamDetector.analyze, VoiceScamDetector.mk.injEq,
      indicatorScore, hm, List.foldl, List.map]
    refine ⟨?_, ?_, ?_, ?_⟩ <;>
      first
        | trivial
        | norm_num [pyMin]
  have e3 : (VoiceScamDetector.analyze
      (⟨6/10, ["urgent", "x"], 153/1000, ["urgent"]⟩ : VoiceScamDetector) "x").1
      = ⟨6/10, ["urgent", "x", "x"], 1971/10000, ["urgent"]⟩ := by
    have hm : matchedIndicators (voiceContext
        (⟨6/10, ["urgent", "x"], 153/1000, ["urgent"]⟩ : VoiceScamDetector) "x")
        = [("urgent", 3/10)] := rfl
    simp only [VoiceScamDetector.analyze, VoiceScamDetector.mk.injEq,
      indicatorScore, hm, List.foldl, List.map]
    refine ⟨?_, ?_, ?_, ?_⟩ <;>
      first
        | trivial
        | norm_num [pyMin]
  have e4 : (VoiceScamDetector.analyze
      (⟨6/10, ["urgent", "x", "x"], 1971/10000, ["urgent"]⟩ : VoiceScamDetector) "x").1
      = ⟨6/10, ["urgent", "x", "x", "x"], 22797/100000, ["urgent"]⟩ := by
    have hm : matchedIndicators (voiceContext
        (⟨6/10, ["urgent", "x", "x"], 1971/10000, ["urgent"]⟩ : VoiceScamDetector) "x")
        = [("urgent", 3/10)] := rfl
    simp only [VoiceScamDetector.analyze, VoiceScamDetector.mk.injEq,
      indicatorScore, hm, List.foldl, List.map]
    refine ⟨?_, ?_, ?_, ?_⟩ <;>
      first
        | trivial
        | norm_num [pyMin]
  have e5 : (VoiceScamDetector.analyze
      (⟨6/10, ["urgent", "x", "x", "x"], 22797/100000, ["urgent"]⟩ : VoiceScamDetector) "x").1
      = ⟨6/10, ["urgent", "x", "x", "x", "x"], 249579/1000000, ["urgent"]⟩ := by
    have hm : matchedIndicators (voiceContext
        (⟨6/10, ["urgent", "x", "x", "x"], 22797/100000, ["urgent"]⟩ : VoiceScamDetector) "x")
        = [("urgent", 3/10)] := rfl
    simp only [VoiceScamDetector.analyze, VoiceScamDetector.mk.injEq,
      indicatorScore, hm, List.foldl, List.map]
    refine ⟨?_, ?_, ?_, ?_⟩ <;>
      first
        | trivial
        | norm_num [pyMin]
  have hrun : voiceRun (create_detector (6/10)) ["urgent", "x", "x", "x", "x"]
      = ⟨6/10, ["urgent", "x", "x", "x", "x"], 249579/1000000, ["urgent"]⟩ := by
    simp only [voiceRun, List.foldl]
    rw [e1, e2, e3, e4, e5]
  have hm6 : matchedIndicators (voiceContext
      (⟨6/10, ["urgent", "x", "x", "x", "x"], 249579/1000000, ["urgent"]⟩ :
        VoiceScamDetector) "x") = [] := rfl
  have g2 : (VoiceScamDetector.analyze
      (voiceRun (create_detector (6/10)) ["urgent", "x", "x", "x", "x"]) "x").1.cumulative_score
      = 1747053/10000000 := by
    rw [hrun]
    simp only [VoiceScamDetector.analyze, indicatorScore, hm6, List.foldl, List.map]
    norm_num [pyMin]
  have g1 : (VoiceScamDetector.analyze
      (voiceRun (create_detector (6/10)) ["urgent", "x", "x", "x", "x"]) "x").2.score
      = 17/100 := by
    rw [hrun]
    simp only [VoiceScamDetector.analyze, indicatorScore, hm6, List.foldl, List.map]
    norm_num [pyMin, pyMax, pyRound2, roundHalfEven]
  refine ⟨g1, g2, ?_⟩
  rw [g1, g2]
  norm_num

/-- C8 amended: for every state and segment, `analyze` updates the cumulative score
to `cumulative*0.7 + score*0.3` (score the capped weighted-keyword sum over the
last-5-segment context), and the returned analysis reports the ROUNDED final
score `round(max(segment score, cumulative score), 2)` while confidence banding
(low below 0.3, medium below 0.6, else high) and the `is_scammer` threshold test
use the unrounded max. -/
theorem voice_analyze_cumulative_and_bands :
    ∀ (st : VoiceScamDetector) (transcript : String),
      ((VoiceScamDetector.analyze st transcript).1.cumulative_score =
        st.cumulative_score * (7/10) +
          (pyMin (indicatorScore (voiceContext st transcript)).1 1) * (3/10)) ∧
      ((VoiceScamDetector.analyze st transcript).2.score =
        pyRound2 (pyMax (pyMin (indicatorScore (voiceContext st transcript)).1 1)
          ((VoiceScamDetector.analyze st transcript).1.cumulative_score))) ∧
      ((VoiceScamDetector.analyze st transcript).2.confidence =
        (if pyMax (pyMin (indicatorScore (voiceContext st transcript)).1 1)
              ((VoiceScamDetector.analyze st transcript).1.cumulative_score) < 3/10
          then "low"
          else if pyMax (pyMin (indicatorScore (voiceContext st transcript)).1 1)
              ((VoiceScamDetector.analyze st transcript).1.cumulative_score) < 6/10
          then "medium" else "high")) ∧
      ((VoiceScamDetector.analyze st transcript).2.is_scammer = true ↔
        st.threshold ≤ pyMax (pyMin (indicatorScore (voiceContext st transcript)).1 1)
          ((VoiceScamDetector.analyze st transcript).1.cumulative_score)) ∧
      ((VoiceScamDetector.analyze st transcript).1.history =
        st.history ++ [transcript]) := by
  intro st transcript
  refine ⟨rfl, rfl, rfl, ?_, rfl⟩
  simp [VoiceScamDetector.analyze, ge_iff_le]

/-- JSON values as Python `json.loads` produces them; numbers as exact rationals
(Python uses IEEE floats; the values the claims touch are exact). -/
inductive JValue where
  | jnull
  | jbool (b : Bool)
  | jnum (q : ℚ)
  | jstr (s : String)
  | jarr (items : List JValue)
  | jobj (fields : List (String × JValue))

/-- JSON insignificant whitespace. -/
def skipWs : List Char → List Char
  | c :: rest =>
    if c = ' ' ∨ c = '\t' ∨ c = '\n' ∨ c = '\r' then skipWs rest else c :: rest
  | [] => []

/-- Hexadecimal digit value. -/
def hexVal (c : Char) : Option Nat :=
  if c.isDigit then some (c.toNat - 48)
  else if 'a' ≤ c ∧ c ≤ 'f' then some (c.toNat - 87)
  else if 'A' ≤ c ∧ c ≤ 'F' then some (c.toNat - 55)
  else none

/-- JSON escape characters after a backslash. -/
def escChar (e : Char) : Option Char :=
  if e = '"' then some '"'
  else if e = '\\' then some '\\'
  else if e = '/' then some '/'
  else if e = 'b' then some '\x08'
  else if e = 'f' then some '\x0c'
  else if e = 'n' then some '\n'
  else if e = 'r' then some '\r'
  else if e = 't' then some '\t'
  else none

/-- JSON string body after the opening quote: contents and the input after the
closing quote.  Unescaped control characters are rejected as Python does;
surrogate pairs are not recombined (the claims never reach them). -/
def parseJStr : List Char → Option (List Char × List Char)
  | [] => none
  | c :: rest =>
    if c = '"' then some ([], rest)
    else if c = '\\' then
      match rest with
      | [] => none
      | 'u' :: h1 :: h2 :: h3 :: h4 :: rest2 =>
        (match hexVal h1, hexVal h2, hexVal h3, hexVal h4 with
         | some a, some b, some c2, some d =>
           (match parseJStr rest2 with
            | some (s, r) => some (Char.ofNat (((a * 16 + b) * 16 + c2) * 16 + d) :: s, r)
            | none => none)
         | _, _, _, _ => none)
      | e :: rest2 =>
        (match escChar e with
         | some ec =>
           (match parseJStr rest2 with
            | some (s, r) => some (ec :: s, r)
            | none => none)
         | none => none)
    else if c.toNat < 32 then none
    else
      match parseJStr rest with
      | some (s, r) => some (c :: s, r)
      | none => none

/-- Digits to a natural number. -/
def digitsToNat (ds : List Char) : Nat :=
  ds.foldl (fun a c => a * 10 + (c.toNat - 48)) 0

/-- JSON number grammar: optional minus, integer part without leading zeros,
optional fraction, optional exponent. -/
def parseJNum (cs : List Char) : Option (ℚ × List Char) :=
  let signed : Bool × List Char :=
    match cs with
    | '-' :: r => (true, r)
    | _ => (false, cs)
  let neg := signed.1
  let cs1 := signed.2
  let ids := cs1.takeWhile (fun c => c.isDigit)
  let cs2 := cs1.dropWhile (fun c => c.isDigit)
  if ids = [] then none
  else if 1 < ids.length ∧ ids.head? = some '0' then none
  else
    let fracRes : Option (List Char × List Char) :=
      match cs2 with
      | '.' :: r =>
        let fds := r.takeWhile (fun c => c.isDigit)
        if fds = [] then none else some (fds, r.dropWhile (fun c => c.isDigit))
      | _ => some ([], cs2)
    match fracRes with
    | none => none
    | some (fds, cs3) =>
      let expRes : Option (Bool × List Char × List Char) :=
        match cs3 with
        | 'e' :: r | 'E' :: r =>
          (match r with
           | '+' :: r2 =>
             let eds := r2.takeWhile (fun c => c.isDigit)
             if eds = [] then none
             else some (false, eds, r2.dropWhile (fun c => c.isDigit))
           | '-' :: r2 =>
             let eds := r2.takeWhile (fun c => c.isDigit)
             if eds = [] then none
             else some (true, eds, r2.dropWhile (fun c => c.isDigit))
           | _ =>
             let eds := r.takeWhile (fun c => c.isDigit)
             if eds = [] then none
             else some (false, eds, r.dropWhile (fun c => c.isDigit)))
        | _ => some (false, [], cs3)
      match expRes with
      | none => none
      | some (eneg, eds, cs4) =>
        let mant : ℚ := (digitsToNat ids : ℚ) +
          (digitsToNat fds : ℚ) / ((10 : ℚ) ^ fds.length)
        let mant := if neg then -mant else mant
        let e : ℕ := digitsToNat eds
        let q := if eneg then mant / ((10 : ℚ) ^ e) else mant * ((10 : ℚ) ^ e)
        some (q, cs4)

mutual

/-- One JSON value (fuelled recursive descent, Python `json.loads` grammar). -/
def parseJValue : Nat → List Char → Option (JValue × List Char)
  | 0, _ => none
  | fuel + 1, cs =>
    match skipWs cs with
    | [] => none
    | '\x7b' :: rest => parseJObj fuel rest
    | '[' :: rest => parseJArr fuel rest
    | '"' :: rest =>
      (match parseJStr rest with
       | some (s, r) => some (JValue.jstr (String.mk s), r)
       | none => none)
    | 't' :: 'r' :: 'u' :: 'e' :: rest => some (JValue.jbool true, rest)
    | 'f' :: 'a' :: 'l' :: 's' :: 'e' :: rest => some (JValue.jbool false, rest)
    | 'n' :: 'u' :: 'l' :: 'l' :: rest => some (JValue.jnull, rest)
    | other =>
      (match parseJNum other with
       | some (q, r) => some (JValue.jnum q, r)
       | none => none)

/-- Object body after the opening brace. -/
def parseJObj : Nat → List Char → Option (JValue × List Char)
  | 0, _ => none
  | fuel + 1, cs =>
    match skipWs cs with
    | '\x7d' :: rest => some (JValue.jobj [], rest)
    | other => parseJMembers fuel other []

/-- Non-empty member list of an object; later duplicate keys are kept in order
(the Python dict overwrite is applied at lookup time). -/
def parseJMembers : Nat → List Char → List (String × JValue) →
    Option (JValue × List Char)
  | 0, _, _ => none
  | fuel + 1, cs, acc =>
    match skipWs cs with
    | '"' :: rest =>
      (match parseJStr rest with
       | none => none
       | some (k, r1) =>
         match skipWs r1 with
         | ':' :: r3 =>
           (match parseJValue fuel r3 with
            | none => none
            | some (v, r4) =>
              match skipWs r4 with
              | ',' :: r6 => parseJMembers fuel r6 (acc ++ [(String.mk k, v)])
              | '\x7d' :: r6 => some (JValue.jobj (acc ++ [(String.mk k, v)]), r6)
              | _ => none)
         | _ => none)
    | _ => none

/-- Array body after the opening bracket. -/
def parseJArr : Nat → List Char → Option (JValue × List Char)
  | 0, _ => none
  | fuel + 1, cs =>
    match skipWs cs with
    | ']' :: rest => some (JValue.jarr [], rest)
    | other => parseJItems fuel other []

/-- Non-empty item list of an array. -/
def parseJItems : Nat → List Char → List JValue → Option (JValue × List Char)
  | 0, _, _ => none
  | fuel + 1, cs, acc =>
    match parseJValue fuel cs with
    | none => none
    | some (v, r) =>
      match skipWs r with
      | ',' :: r3 => parseJItems fuel r3 (acc ++ [v])
      | ']' :: r3 => some (JValue.jarr (acc ++ [v]), r3)
      | _ => none

end

/-- Python `json.loads`: parse one value and require only whitespace after it.
The fuel is ample: every recursion step consumes input. -/
def jsonLoads (s : String) : Option JValue :=
  match parseJValue (2 * s.length + 16) s.data with
  | some (v, rest) => if skipWs rest = [] then some v else none
  | none => none

/-- Python `str.find` for a single character: index of first occurrence or -1. -/
def pyFindChar (s : String) (c : Char) : Int :=
  match s.data.findIdx? (fun x => x = c) with
  | some i => (i : Int)
  | none => -1

/-- Python `str.rfind` for a single character: index of last occurrence or -1. -/
def pyRfindChar (s : String) (c : Char) : Int :=
  match s.data.reverse.findIdx? (fun x => x = c) with
  | some i => (s.data.length : Int) - 1 - (i : Int)
  | none => -1

/-- The slice step of `ScamClassifier._parse_llm_response`: take the substring from
the first opening brace to the last closing brace inclusive; `none` models the
raised-and-caught ValueError when either brace is missing. -/
def extract_json_str (response : String) : Option String :=
  let json_start := pyFindChar response '\x7b'
  let json_end := pyRfindChar response '\x7d' + 1
  if json_start = -1 ∨ json_end = 0 then none
  else some (String.mk ((response.data.take json_end.toNat).drop json_start.toNat))

/-- The parse-failure result of `_parse_llm_response`. -/
def fallbackClassification : ScamClassification :=
  ⟨ScamType.unknown, 3/10, ["llm_parse_error"]⟩

/-- The `scam_type_map` of `_parse_llm_response`. -/
def SCAM_TYPE_MAP : List (String × ScamType) :=
  [("lottery", ScamType.lottery), ("upi_fraud", ScamType.upi_fraud),
   ("tech_support", ScamType.tech_support), ("investment", ScamType.investment),
   ("romance", ScamType.romance), ("unknown", ScamType.unknown)]

/-- Python dict lookup on parsed JSON object fields: the LAST binding of a
duplicated key wins, as later keys overwrite in `json.loads`. -/
def jsonGet (fields : List (String × JValue)) (k : String) : Option JValue :=
  alGet fields.reverse k

/-- Outcome of evaluating `float(data.get("confidence", 0.5))`. -/
inductive ConfOutcome where
  | ok (q : ℚ)
  | valueErr
  | typeErr

/-- Python `float(str)`: optional surrounding whitespace and sign, digits with
optional fraction and exponent (`inf`/`nan` forms are not modelled; the claims
never reach them). -/
def pyFloatOfString (s : String) : Option ℚ :=
  let cs := skipWs s.data
  let signed : Bool × List Char :=
    match cs with
    | '-' :: r => (true, r)
    | '+' :: r => (false, r)
    | _ => (false, cs)
  let neg := signed.1
  let cs1 := signed.2
  let d1 := cs1.takeWhile (fun c => c.isDigit)
  let cs2 := cs1.dropWhile (fun c => c.isDigit)
  let fracd : List Char × List Char :=
    match cs2 with
    | '.' :: r => (r.takeWhile (fun c => c.isDigit), r.dropWhile (fun c => c.isDigit))
    | _ => ([], cs2)
  let d2 := fracd.1
  let cs3 := fracd.2
  if d1 = [] ∧ d2 = [] then none
  else
    let expRes : Option (Bool × List Char × List Char) :=
      match cs3 with
      | 'e' :: r | 'E' :: r =>
        (match r with
         | '+' :: r2 =>
           let eds := r2.takeWhile (fun c => c.isDigit)
           if eds = [] then none
           else some (false, eds, r2.dropWhile (fun c => c.isDigit))
         | '-' :: r2 =>
           let eds := r2.takeWhile (fun c => c.isDigit)
           if eds = [] then none
           else some (true, eds, r2.dropWhile (fun c => c.isDigit))
         | _ =>
           let eds := r.takeWhile (fun c => c.isDigit)
           if eds = [] then none
           else some (false, eds, r.dropWhile (fun c => c.isDigit)))
      | _ => some (false, [], cs3)
    match expRes with
    | none => none
    | some (eneg, eds, cs4) =>
      if skipWs cs4 = [] then
        let mant : ℚ := (digitsToNat d1 : ℚ) +
          (digitsToNat d2 : ℚ) / ((10 : ℚ) ^ d2.length)
        let mant := if neg then -mant else mant
        let e : ℕ := digitsToNat eds
        some (if eneg then mant / ((10 : ℚ) ^ e) else mant * ((10 : ℚ) ^ e))
      else none

/-- The `data.get("scam_type", "unknown").lower()` step: `none` models the uncaught
AttributeError when the field holds a non-string. -/
def scamTypeStep (d : List (String × JValue)) : Option String :=
  match jsonGet d "scam_type" with
  | none => some "unknown"
  | some (JValue.jstr s) => some (pyLower s)
  | some _ => none

/-- The `float(data.get("confidence", 0.5))` step: numbers and booleans convert,
numeric strings convert, non-numeric strings raise ValueError (caught by the
enclosing except clause), and null, arrays and objects raise TypeError
(not caught). -/
def confidenceStep (d : List (String × JValue)) : ConfOutcome :=
  match jsonGet d "confidence" with
  | none => ConfOutcome.ok (1/2)
  | some (JValue.jnum q) => ConfOutcome.ok q
  | some (JValue.jbool b) => ConfOutcome.ok (if b then 1 else 0)
  | some (JValue.jstr s) =>
    (match pyFloatOfString s with
     | some q => ConfOutcome.ok q
     | none => ConfOutcome.valueErr)
  | some _ => ConfOutcome.typeErr

/-- A JSON array of strings, as pydantic validation of `List[str]` requires;
`none` models the uncaught ValidationError otherwise. -/
def allStrings : List JValue → Option (List String)
  | [] => some []
  | JValue.jstr s :: rest => (allStrings rest).map (fun l => s :: l)
  | _ => none

/-- The `data.get("indicators", [])` step with pydantic validation. -/
def indicatorsStep (d : List (String × JValue)) : Option (List String) :=
  match jsonGet d "indicators" with
  | none => some []
  | some (JValue.jarr items) => allStrings items
  | some _ => none

/-- `ScamClassifier._parse_llm_response` from `honeypot/detection/classifier.py`:
slice from the first opening to the last closing brace, `json.loads` it, map the
scam type string with default `unknown`, clamp the confidence to [0, 1], default
the indicators to `[]`; any JSON or float ValueError yields the fixed fallback.
`none` models an uncaught exception escaping the method (non-string scam type,
non-convertible confidence type, non-string-list indicators). -/
def parse_llm_response (response : String) : Option ScamClassification :=
  match extract_json_str response with
  | none => some fallbackClassification
  | some s =>
    match jsonLoads s with
    | none => some fallbackClassification
    | some (JValue.jobj d) =>
      (match scamTypeStep d with
       | none => none
       | some tstr =>
         let t := (alGet SCAM_TYPE_MAP tstr).getD ScamType.unknown
         match confidenceStep d with
         | ConfOutcome.typeErr => none
         | ConfOutcome.valueErr => some fallbackClassification
         | ConfOutcome.ok q =>
           match indicatorsStep d with
           | none => none
           | some inds => some ⟨t, pyMin (pyMax q 0) 1, inds⟩)
    | some _ => none

/-- Scan for the closing brace matching the first opening one (depth counting,
ignoring string contexts, which the claims never exercise). -/
def balancedScan : Nat → List Char → Nat → List Char → Option (List Char)
  | 0, _, _, _ => none
  | _ + 1, [], _, _ => none
  | fuel + 1, c :: rest, depth, acc =>
    if c = '\x7d' then
      if depth = 1 then some ((c :: acc).reverse)
      else balancedScan fuel rest (depth - 1) (c :: acc)
    else if c = '\x7b' then balancedScan fuel rest (depth + 1) (c :: acc)
    else balancedScan fuel rest depth (c :: acc)

/-- The FIRST BALANCED brace block of the response — the extraction the
specification describes (for comparison with the source's first-to-last slice). -/
def firstBalancedBlock (response : String) : Option String :=
  let cs := response.data.dropWhile (fun c => c ≠ '\x7b')
  match cs with
  | [] => none
  | _ => (balancedScan (cs.length + 1) cs 0 []).map String.mk

/-- The spec-described parser: the pipeline of `_parse_llm_response` applied to the
first balanced brace block instead of the first-to-last slice. -/
def parse_first_balanced (response : String) : Option ScamClassification :=
  match firstBalancedBlock response with
  | none => some fallbackClassification
  | some s =>
    match jsonLoads s with
    | none => some fallbackClassification
    | some (JValue.jobj d) =>
      (match scamTypeStep d with
       | none => none
       | some tstr =>
         let t := (alGet SCAM_TYPE_MAP tstr).getD ScamType.unknown
         match confidenceStep d with
         | ConfOutcome.typeErr => none
         | ConfOutcome.valueErr => some fallbackClassification
         | ConfOutcome.ok q =>
           match indicatorsStep d with
           | none => none
           | some inds => some ⟨t, pyMin (pyMax q 0) 1, inds⟩)
    | some _ => none

/-- C4 counterexample: on the reply `\x7b"scam_type": "lottery"\x7d \x7d` (a valid
JSON block followed by a stray closing brace) the first-balanced-block semantics
of the claim parses the block and returns lottery with the 0.5 default
confidence, but the code slices from the first to the LAST brace, gets invalid
JSON, and returns the fallback: the claim misdescribes which block is parsed. -/
theorem parse_llm_response_counterexample :
    parse_first_balanced "\x7b\"scam_type\": \"lottery\"\x7d \x7d" =
      some ⟨ScamType.lottery, 1/2, []⟩ ∧
    parse_llm_response "\x7b\"scam_type\": \"lottery\"\x7d \x7d" =
      some fallbackClassification ∧
    fallbackClassification = ⟨ScamType.unknown, 3/10, ["llm_parse_error"]⟩ ∧
    some (⟨ScamType.lottery, 1/2, []⟩ : ScamClassification) ≠
      some (⟨ScamType.unknown, 3/10, ["llm_parse_error"]⟩ : ScamClassification) := by
  refine ⟨?_, rfl, rfl, ?_⟩
  · have hb : firstBalancedBlock "\x7b\"scam_type\": \"lottery\"\x7d \x7d" =
        some "\x7b\"scam_type\": \"lottery\"\x7d" := rfl
    have hj : jsonLoads "\x7b\"scam_type\": \"lottery\"\x7d" =
        some (JValue.jobj [("scam_type", JValue.jstr "lottery")]) := rfl
    have h1 : scamTypeStep [("scam_type", JValue.jstr "lottery")] = some "lottery" := rfl
    have h2 : confidenceStep [("scam_type", JValue.jstr "lottery")] =
        ConfOutcome.ok (1/2) := rfl
    have h3 : indicatorsStep [("scam_type", JValue.jstr "lottery")] = some [] := rfl
    have h4 : alGet SCAM_TYPE_MAP "lottery" = some ScamType.lottery := rfl
    simp only [parse_first_balanced, hb, hj, h1, h2, h3, h4, Option.getD_some,
      ScamClassification.mk.injEq, Option.some.injEq]
    refine ⟨?_, ?_, ?_⟩ <;>
      first
        | trivial
        | norm_num [pyMin, pyMax]
  · intro h
    simp only [Option.some.injEq, ScamClassification.mk.injEq] at h
    exact absurd h.1 (by decide)

/-- Helper: the clamp `min(max(q, 0), 1)` lands in [0, 1]. -/
theorem clamp_mem_unit (q : ℚ) :
    0 ≤ pyMin (pyMax q 0) 1 ∧ pyMin (pyMax q 0) 1 ≤ 1 := by
  simp only [pyMin, pyMax]
  split_ifs <;> constructor <;> linarith

/-- C4 amended: `_parse_llm_response` parses the substring from the FIRST opening
brace to the LAST closing brace (not the first balanced block); when either brace
is missing, or the slice is not valid JSON, it returns exactly category unknown,
confidence 0.3 and indicators `["llm_parse_error"]`; every classification it
returns has confidence in [0, 1]; and an unknown scam_type string maps to
category unknown with missing confidence defaulting to 0.5 (clamped) and missing
indicators to the empty list. -/
theorem parse_llm_response_amended :
    (∀ response : String, extract_json_str response = none →
      parse_llm_response response = some fallbackClassification) ∧
    (∀ (response s : String), extract_json_str response = some s →
      jsonLoads s = none →
      parse_llm_response response = some fallbackClassification) ∧
    (∀ (response : String) (c : ScamClassification),
      parse_llm_response response = some c →
      0 ≤ c.confidence ∧ c.confidence ≤ 1) ∧
    parse_llm_response "\x7b\"scam_type\": \"alien\", \"indicators\": [\"a\"]\x7d" =
      some ⟨ScamType.unknown, 1/2, ["a"]⟩ := by
  refine ⟨?_, ?_, ?_, ?_⟩
  · intro response h
    simp only [parse_llm_response, h]
  · intro response s h1 h2
    simp only [parse_llm_response, h1, h2]
  · intro response c h
    simp only [parse_llm_response] at h
    cases hx : extract_json_str response with
    | none =>
      simp only [hx] at h
      injection h with h2
      subst h2
      norm_num [fallbackClassification]
    | some s =>
      simp only [hx] at h
      cases hj : jsonLoads s with
      | none =>
        simp only [hj] at h
        injection h with h2
        subst h2
        norm_num [fallbackClassification]
      | some v =>
        simp only [hj] at h
        cases v with
        | jobj d =>
          cases hts : scamTypeStep d with
          | none => simp [hts] at h
          | some tstr =>
            simp only [hts] at h
            cases hc : confidenceStep d with
            | typeErr => simp [hc] at h
            | valueErr =>
              simp only [hc] at h
              injection h with h2
              subst h2
              norm_num [fallbackClassification]
            | ok q =>
              simp only [hc] at h
              cases hi : indicatorsStep d with
              | none => simp [hi] at h
              | some inds =>
                simp only [hi] at h
                injection h with h2
                subst h2
                exact clamp_mem_unit q
        | jnull => simp at h
        | jbool b => simp at h
        | jnum q => simp at h
        | jstr s2 => simp at h
        | jarr l => simp at h
  · have hx : extract_json_str
        "\x7b\"scam_type\": \"alien\", \"indicators\": [\"a\"]\x7d" =
        some "\x7b\"scam_type\": \"alien\", \"indicators\": [\"a\"]\x7d" := rfl
    have hj : jsonLoads "\x7b\"scam_type\": \"alien\", \"indicators\": [\"a\"]\x7d" =
        some (JValue.jobj [("scam_type", JValue.jstr "alien"),
          ("indicators", JValue.jarr [JValue.jstr "a"])]) := rfl
    have h1 : scamTypeStep [("scam_type", JValue.jstr "alien"),
        ("indicators", JValue.jarr [JValue.jstr "a"])] = some "alien" := rfl
    have h2 : confidenceStep [("scam_type", JValue.jstr "alien"),
        ("indicators", JValue.jarr [JValue.jstr "a"])] = ConfOutcome.ok (1/2) := rfl
    have h3 : indicatorsStep [("scam_type", JValue.jstr "alien"),
        ("indicators", JValue.jarr [JValue.jstr "a"])] = some ["a"] := rfl
    have h4 : alGet SCAM_TYPE_MAP "alien" = none := rfl
    simp only [parse_llm_response, hx, hj, h1, h2, h3, h4, Option.getD_none,
      ScamClassification.mk.injEq, Option.some.injEq]
    refine ⟨?_, ?_, ?_⟩ <;>
      first
        | trivial
        | norm_num [pyMin, pyMax]

/-- C4 witness: the amended theorem applied to concrete replies: one with no JSON
braces (first conjunct), one whose brace slice is invalid JSON (second conjunct),
and the confidence bound read off the first result (third conjunct). -/
theorem parse_llm_response_amended_witness :
    parse_llm_response "no json here" = some fallbackClassification ∧
    parse_llm_response "\x7b] \x7d" = some fallbackClassification ∧
    (0 ≤ fallbackClassification.confidence ∧ fallbackClassification.confidence ≤ 1) := by
  refine ⟨parse_llm_response_amended.1 "no json here" rfl,
    parse_llm_response_amended.2.1 "\x7b] \x7d" "\x7b] \x7d" rfl rfl,
    parse_llm_response_amended.2.2.1 "no json here" fallbackClassification
      (parse_llm_response_amended.1 "no json here" rfl)⟩
